import Mathlib

/-!
Shallow embedding of `src/main.py` (a small zoo model with tagged JSON
persistence): the Animal/Employee variant hierarchies, the Zoo aggregate,
and the save/load codec, followed by theorems about them.

Modelling conventions:
* Python class hierarchies become a flat structure plus a variant payload
  (`Animal` with `AnimalExtra`, `Employee` with `EmployeeRole`).
* The JSON document is embedded structurally: a record (`dict`) is an
  association list with first-match lookup (keys produced by `to_dict` are
  unique, matching Python dict semantics), and the whole file is a `ZooDoc`
  with the four top-level fields `save_to_file` writes.
* Python floats (the `wingspan` field) are modelled as `Rat`; JSON
  round-trips Python floats exactly, so exact equality is faithful.
* Mutation becomes explicit state passing: a method that mutates and
  returns a string becomes a function returning the updated value paired
  with the string.
* Fallible dictionary indexing (`data["k"]`, a `KeyError` in Python)
  becomes `Except String`; `datetime.now()` becomes an explicit `now`
  argument to the operations that call it.
-/

/-- A JSON scalar as it appears in the persisted records. -/
inductive JValue where
  | vStr : String → JValue
  | vInt : Int → JValue
  | vRat : Rat → JValue
  | vBool : Bool → JValue
deriving DecidableEq

/-- A persisted record: a Python dict of scalar fields. -/
abbrev JRecord := List (String × JValue)

/-- Dict lookup; first match (keys are unique in records produced by `to_dict`). -/
def JRecord.get : JRecord → String → Option JValue
  | [], _ => none
  | (k, v) :: rest, key => if k = key then some v else JRecord.get rest key

/-- `r[k]` expecting a string: `KeyError` when absent. -/
def JRecord.getStr (r : JRecord) (k : String) : Except String String :=
  match r.get k with
  | some (JValue.vStr s) => Except.ok s
  | some _ => Except.error ("TypeError: " ++ k)
  | none => Except.error ("KeyError: " ++ k)

/-- `r[k]` expecting an integer. -/
def JRecord.getInt (r : JRecord) (k : String) : Except String Int :=
  match r.get k with
  | some (JValue.vInt n) => Except.ok n
  | some _ => Except.error ("TypeError: " ++ k)
  | none => Except.error ("KeyError: " ++ k)

/-- `r[k]` expecting a float. -/
def JRecord.getRat (r : JRecord) (k : String) : Except String Rat :=
  match r.get k with
  | some (JValue.vRat q) => Except.ok q
  | some _ => Except.error ("TypeError: " ++ k)
  | none => Except.error ("KeyError: " ++ k)

/-- `r[k]` expecting a boolean. -/
def JRecord.getBool (r : JRecord) (k : String) : Except String Bool :=
  match r.get k with
  | some (JValue.vBool b) => Except.ok b
  | some _ => Except.error ("TypeError: " ++ k)
  | none => Except.error ("KeyError: " ++ k)

/-- The variant-specific payload of the three concrete Animal classes. -/
inductive AnimalExtra where
  | bird : Rat → AnimalExtra
  | mammal : String → AnimalExtra
  | reptile : Bool → AnimalExtra
deriving DecidableEq

/-- In-memory Animal: the base fields of `Animal.__init__` plus the variant payload. -/
structure Animal where
  name : String
  age : Int
  species : String
  health : Int
  hunger : Int
  extra : AnimalExtra
deriving DecidableEq

/-- `Bird(name, age, species, wingspan)`: base init sets health 100, hunger 0. -/
def Bird (name : String) (age : Int) (species : String) (wingspan : Rat) : Animal :=
  { name := name, age := age, species := species, health := 100, hunger := 0,
    extra := AnimalExtra.bird wingspan }

/-- `Mammal(name, age, species, fur_color)`. -/
def Mammal (name : String) (age : Int) (species : String) (fur_color : String) : Animal :=
  { name := name, age := age, species := species, health := 100, hunger := 0,
    extra := AnimalExtra.mammal fur_color }

/-- `Reptile(name, age, species, is_venomous)`. -/
def Reptile (name : String) (age : Int) (species : String) (is_venomous : Bool) : Animal :=
  { name := name, age := age, species := species, health := 100, hunger := 0,
    extra := AnimalExtra.reptile is_venomous }

/-- `self.__class__.__name__` of the concrete animal class. -/
def Animal.type_tag (a : Animal) : String :=
  match a.extra with
  | AnimalExtra.bird _ => "Bird"
  | AnimalExtra.mammal _ => "Mammal"
  | AnimalExtra.reptile _ => "Reptile"

/-- `Animal.eat`: clamp hunger at 0 and report the new level. -/
def Animal.eat (a : Animal) (food_amount : Int) : Animal × String :=
  let new_hunger := max 0 (a.hunger - food_amount)
  ({ a with hunger := new_hunger },
   a.name ++ " has eaten. Hunger level: " ++ toString new_hunger)

/-- `make_sound` of the concrete animal class. -/
def Animal.make_sound (a : Animal) : String :=
  match a.extra with
  | AnimalExtra.bird _ => a.name ++ " chirps: Tweet tweet!"
  | AnimalExtra.mammal _ => a.name ++ " roars: Roar!"
  | AnimalExtra.reptile _ => a.name ++ " hisses: Hiss!"

/-- `to_dict`: the base fields tagged with the class name, plus the variant field. -/
def Animal.to_dict (a : Animal) : JRecord :=
  [("type", JValue.vStr a.type_tag),
   ("name", JValue.vStr a.name),
   ("age", JValue.vInt a.age),
   ("species", JValue.vStr a.species),
   ("health", JValue.vInt a.health),
   ("hunger", JValue.vInt a.hunger)] ++
  (match a.extra with
   | AnimalExtra.bird w => [("wingspan", JValue.vRat w)]
   | AnimalExtra.mammal c => [("fur_color", JValue.vStr c)]
   | AnimalExtra.reptile v => [("is_venomous", JValue.vBool v)])

/-- Which concrete Employee class an instance belongs to. -/
inductive EmployeeRole where
  | zooKeeper
  | veterinarian
deriving DecidableEq

/-- In-memory Employee: the fields of `Employee.__init__` plus the concrete class. -/
structure Employee where
  name : String
  id_number : String
  specialization : String
  role : EmployeeRole
deriving DecidableEq

/-- `ZooKeeper(name, id_number, specialization)`. -/
def ZooKeeper (name id_number specialization : String) : Employee :=
  { name := name, id_number := id_number, specialization := specialization,
    role := EmployeeRole.zooKeeper }

/-- `Veterinarian(name, id_number, specialization)`. -/
def Veterinarian (name id_number specialization : String) : Employee :=
  { name := name, id_number := id_number, specialization := specialization,
    role := EmployeeRole.veterinarian }

/-- `self.__class__.__name__` of the concrete employee class. -/
def Employee.type_tag (e : Employee) : String :=
  match e.role with
  | EmployeeRole.zooKeeper => "ZooKeeper"
  | EmployeeRole.veterinarian => "Veterinarian"

/-- `work` of the concrete employee class. -/
def Employee.work (e : Employee) : String :=
  match e.role with
  | EmployeeRole.zooKeeper => "Zookeeper " ++ e.name ++ " is taking care of the animals"
  | EmployeeRole.veterinarian => "Veterinarian " ++ e.name ++ " is checking animals' health"

/-- `Employee.to_dict`. -/
def Employee.to_dict (e : Employee) : JRecord :=
  [("type", JValue.vStr e.type_tag),
   ("name", JValue.vStr e.name),
   ("id_number", JValue.vStr e.id_number),
   ("specialization", JValue.vStr e.specialization)]

/-- `ZooKeeper.feed_animal`: delegate to the animal's `eat`, wrap its status string. -/
def Employee.feed_animal (self : Employee) (animal : Animal) (food_amount : Int) :
    Animal × String :=
  let fed := animal.eat food_amount
  (fed.1, "Zookeeper " ++ self.name ++ " fed " ++ animal.name ++ ". " ++ fed.2)

/-- `Veterinarian.heal_animal`: +20 capped at 100 when below 100, otherwise no-op. -/
def Employee.heal_animal (self : Employee) (animal : Animal) : Animal × String :=
  if animal.health < 100 then
    let new_health := min 100 (animal.health + 20)
    ({ animal with health := new_health },
     "Veterinarian " ++ self.name ++ " treated " ++ animal.name ++ ". Health now: " ++
       toString new_health)
  else
    (animal, animal.name ++ " is already healthy")

/-- The Zoo aggregate. -/
structure Zoo where
  name : String
  animals : List Animal
  employees : List Employee
  founded_date : String
deriving DecidableEq

/-- `Zoo.__init__`: empty collections; `founded_date` defaults to the current date,
passed here explicitly as `now`. -/
def Zoo.init (name : String) (now : String) : Zoo :=
  { name := name, animals := [], employees := [], founded_date := now }

/-- `add_animal`: append. -/
def Zoo.add_animal (z : Zoo) (animal : Animal) : Zoo :=
  { z with animals := z.animals ++ [animal] }

/-- `add_employee`: append. -/
def Zoo.add_employee (z : Zoo) (employee : Employee) : Zoo :=
  { z with employees := z.employees ++ [employee] }

/-- `list_animals`: newline-joined `species name` lines in collection order. -/
def Zoo.list_animals (z : Zoo) : String :=
  String.intercalate "\n" (z.animals.map (fun animal => animal.species ++ " " ++ animal.name))

/-- `list_employees`: newline-joined `ClassName name` lines in collection order. -/
def Zoo.list_employees (z : Zoo) : String :=
  String.intercalate "\n"
    (z.employees.map (fun employee => employee.type_tag ++ " " ++ employee.name))

/-- `animal_sounds`: newline-joined `make_sound()` outputs in collection order. -/
def Zoo.animal_sounds (z : Zoo) : String :=
  String.intercalate "\n" (z.animals.map Animal.make_sound)

/-- The document `save_to_file` serializes (the content of the JSON file). -/
structure ZooDoc where
  name : String
  founded_date : String
  animals : List JRecord
  employees : List JRecord
deriving DecidableEq

/-- `save_to_file`: the four top-level fields, records in collection order. -/
def Zoo.save_to_file (z : Zoo) : ZooDoc :=
  { name := z.name,
    founded_date := z.founded_date,
    animals := z.animals.map Animal.to_dict,
    employees := z.employees.map Employee.to_dict }

/-- One iteration of the animal-restore loop of `load_from_file`: dispatch on
`animal_data["type"]`; on a matched tag construct the variant from its fields and
then overwrite `health` and `hunger` with the persisted values; on an unmatched
tag produce `none` (the record is skipped). Field reads happen in the source's
order and a missing field is a `KeyError`. -/
def loadAnimal (r : JRecord) : Except String (Option Animal) :=
  match r.get "type" with
  | none => Except.error "KeyError: type"
  | some t =>
    if t = JValue.vStr "Bird" then
      (r.getStr "name").bind fun name =>
      (r.getInt "age").bind fun age =>
      (r.getStr "species").bind fun species =>
      (r.getRat "wingspan").bind fun wingspan =>
      (r.getInt "health").bind fun health =>
      (r.getInt "hunger").bind fun hunger =>
      Except.ok (some { Bird name age species wingspan with health := health, hunger := hunger })
    else if t = JValue.vStr "Mammal" then
      (r.getStr "name").bind fun name =>
      (r.getInt "age").bind fun age =>
      (r.getStr "species").bind fun species =>
      (r.getStr "fur_color").bind fun fur_color =>
      (r.getInt "health").bind fun health =>
      (r.getInt "hunger").bind fun hunger =>
      Except.ok (some { Mammal name age species fur_color with health := health, hunger := hunger })
    else if t = JValue.vStr "Reptile" then
      (r.getStr "name").bind fun name =>
      (r.getInt "age").bind fun age =>
      (r.getStr "species").bind fun species =>
      (r.getBool "is_venomous").bind fun is_venomous =>
      (r.getInt "health").bind fun health =>
      (r.getInt "hunger").bind fun hunger =>
      Except.ok (some { Reptile name age species is_venomous with health := health, hunger := hunger })
    else
      Except.ok none

/-- One iteration of the employee-restore loop: dispatch on `employee_data["type"]`;
unmatched tags are skipped; employees have no post-construction overlay. -/
def loadEmployee (r : JRecord) : Except String (Option Employee) :=
  match r.get "type" with
  | none => Except.error "KeyError: type"
  | some t =>
    if t = JValue.vStr "ZooKeeper" then
      (r.getStr "name").bind fun name =>
      (r.getStr "id_number").bind fun id_number =>
      (r.getStr "specialization").bind fun specialization =>
      Except.ok (some (ZooKeeper name id_number specialization))
    else if t = JValue.vStr "Veterinarian" then
      (r.getStr "name").bind fun name =>
      (r.getStr "id_number").bind fun id_number =>
      (r.getStr "specialization").bind fun specialization =>
      Except.ok (some (Veterinarian name id_number specialization))
    else
      Except.ok none

/-- The animal-restore loop: resolved animals are appended (`add_animal`) in
document order, skipped ones leave the accumulator unchanged, a failed record
aborts the whole load. -/
def loadAnimals : List JRecord → List Animal → Except String (List Animal)
  | [], acc => Except.ok acc
  | r :: rest, acc =>
    (loadAnimal r).bind fun resolved =>
      match resolved with
      | some a => loadAnimals rest (acc ++ [a])
      | none => loadAnimals rest acc

/-- The employee-restore loop. -/
def loadEmployees : List JRecord → List Employee → Except String (List Employee)
  | [], acc => Except.ok acc
  | r :: rest, acc =>
    (loadEmployee r).bind fun resolved =>
      match resolved with
      | some e => loadEmployees rest (acc ++ [e])
      | none => loadEmployees rest acc

/-- `load_from_file`: construct a fresh Zoo from the document's name (the
constructor stamps `now` as the default `founded_date`), overwrite
`founded_date` with the persisted value, then run the two restore loops. -/
def Zoo.load_from_file (doc : ZooDoc) (now : String) : Except String Zoo :=
  let zoo := Zoo.init doc.name now
  let zoo := { zoo with founded_date := doc.founded_date }
  (loadAnimals doc.animals zoo.animals).bind fun animals =>
  (loadEmployees doc.employees zoo.employees).bind fun employees =>
  Except.ok { zoo with animals := animals, employees := employees }

/-- The documented invariant on every Animal. -/
abbrev AnimalInv (a : Animal) : Prop :=
  0 ≤ a.health ∧ a.health ≤ 100 ∧ 0 ≤ a.hunger

/-! ### Shared lemmas -/

theorem ebind_ok {α β : Type} (x : Except String α) (f : α → Except String β) (b : β)
    (h : x.bind f = Except.ok b) : ∃ a, x = Except.ok a ∧ f a = Except.ok b := by
  cases x with
  | error e => simp [Except.bind] at h
  | ok a => exact ⟨a, rfl, by simpa [Except.bind] using h⟩

theorem loadAnimal_to_dict (a : Animal) : loadAnimal a.to_dict = Except.ok (some a) := by
  obtain ⟨name, age, species, health, hunger, extra⟩ := a
  cases extra <;> rfl

theorem loadEmployee_to_dict (e : Employee) : loadEmployee e.to_dict = Except.ok (some e) := by
  obtain ⟨name, id_number, specialization, role⟩ := e
  cases role <;> rfl

theorem loadAnimals_map (xs acc : List Animal) :
    loadAnimals (xs.map Animal.to_dict) acc = Except.ok (acc ++ xs) := by
  induction xs generalizing acc with
  | nil => simp [loadAnimals]
  | cons x xs ih => simp [loadAnimals, loadAnimal_to_dict, Except.bind, ih]

theorem loadEmployees_map (xs acc : List Employee) :
    loadEmployees (xs.map Employee.to_dict) acc = Except.ok (acc ++ xs) := by
  induction xs generalizing acc with
  | nil => simp [loadEmployees]
  | cons x xs ih => simp [loadEmployees, loadEmployee_to_dict, Except.bind, ih]

theorem load_save (z : Zoo) (now : String) :
    Zoo.load_from_file z.save_to_file now = Except.ok z := by
  obtain ⟨name, animals, employees, founded⟩ := z
  simp [Zoo.load_from_file, Zoo.save_to_file, Zoo.init, loadAnimals_map, loadEmployees_map,
    Except.bind]

/-! ### Concrete instances (the demonstration data of `main`) -/

def eagle : Animal := Bird "Eddie" 5 "Eagle" (21/10)

def lion : Animal := Mammal "Leo" 8 "Lion" "golden"

def sid : Animal := Reptile "Sid" 3 "Python" false

def keeper : Employee := ZooKeeper "John" "ZK001" "Large mammals"

def vet : Employee := Veterinarian "Dr. Smith" "VET001" "Avian medicine"

def demoZoo : Zoo :=
  { name := "Central Zoo", animals := [eagle, lion, sid], employees := [keeper, vet],
    founded_date := "2024-01-01" }

def sickLion : Animal := { lion with health := 50 }

def demoDoc : ZooDoc := demoZoo.save_to_file

/-! ### Claims -/

/-- C1: loading the document produced by save yields a Zoo with the identical
name, the identical persisted `founded_date`, and position by position the
identical animals and employees (variant, base fields, and the mutable
`health`/`hunger` included), for any Zoo whose animals satisfy the documented
health/hunger bounds. -/
theorem C1_roundtrip (z : Zoo) (now : String) (hA : ∀ a ∈ z.animals, AnimalInv a) :
    Zoo.load_from_file z.save_to_file now = Except.ok z :=
  load_save z now

theorem C1_roundtrip_witness :
    (∀ a ∈ demoZoo.animals, AnimalInv a) ∧
    Zoo.load_from_file demoZoo.save_to_file "2030-05-05" = Except.ok demoZoo :=
  ⟨by decide, C1_roundtrip demoZoo "2030-05-05" (by decide)⟩

/-- C2: for every Animal and every integer food amount (negative and oversized
included), `eat` sets hunger to `max 0 (hunger - food_amount)` — never below
0 — and returns the status string reporting the new hunger value. -/
theorem C2_eat_clamps (a : Animal) (food_amount : Int) :
    (a.eat food_amount).1.hunger = max 0 (a.hunger - food_amount) ∧
    0 ≤ (a.eat food_amount).1.hunger ∧
    (a.eat food_amount).2 =
      a.name ++ " has eaten. Hunger level: " ++ toString (max 0 (a.hunger - food_amount)) := by
  refine ⟨rfl, ?_, rfl⟩
  show 0 ≤ max 0 (a.hunger - food_amount)
  exact le_max_left 0 _

/-- C3: `heal_animal` on health < 100 sets health to `min 100 (health + 20)`
and reports the new value; on health = 100 it leaves the animal unchanged and
returns the "already healthy" status; it never pushes health above 100, so
repeated calls on a healthy animal stay no-ops. -/
theorem C3_heal_spec (v : Employee) (a : Animal) :
    (a.health < 100 →
      (v.heal_animal a).1.health = min 100 (a.health + 20) ∧
      (v.heal_animal a).2 =
        "Veterinarian " ++ v.name ++ " treated " ++ a.name ++ ". Health now: " ++
          toString (min 100 (a.health + 20))) ∧
    (a.health = 100 →
      (v.heal_animal a).1 = a ∧ (v.heal_animal a).2 = a.name ++ " is already healthy") ∧
    (a.health ≤ 100 → (v.heal_animal a).1.health ≤ 100) := by
  refine ⟨fun h => ?_, fun h => ?_, fun h => ?_⟩
  · simp [Employee.heal_animal, h]
  · simp [Employee.heal_animal, h]
  · by_cases hlt : a.health < 100
    · simp [Employee.heal_animal, hlt]
    · simp [Employee.heal_animal, hlt]
      exact h

theorem C3_heal_spec_witness :
    ((vet.heal_animal sickLion).1.health = min 100 (sickLion.health + 20) ∧
      (vet.heal_animal sickLion).2 =
        "Veterinarian " ++ vet.name ++ " treated " ++ sickLion.name ++ ". Health now: " ++
          toString (min 100 (sickLion.health + 20))) ∧
    ((vet.heal_animal eagle).1 = eagle ∧
      (vet.heal_animal eagle).2 = eagle.name ++ " is already healthy") ∧
    (vet.heal_animal eagle).1.health ≤ 100 :=
  ⟨(C3_heal_spec vet sickLion).1 (by decide),
   (C3_heal_spec vet eagle).2.1 (by decide),
   (C3_heal_spec vet eagle).2.2 (by decide)⟩

/-- C4: `0 ≤ health ≤ 100` and `0 ≤ hunger` hold after construction of every
variant (health 100, hunger 0), are preserved by `eat` and `heal_animal`, and
survive the load step that overwrites a fresh animal's health and hunger with
the persisted values of a saved, invariant-satisfying Zoo. -/
theorem C4_invariants :
    (∀ (n : String) (ag : Int) (s : String) (w : Rat),
      AnimalInv (Bird n ag s w) ∧ (Bird n ag s w).health = 100 ∧ (Bird n ag s w).hunger = 0) ∧
    (∀ (n : String) (ag : Int) (s c : String),
      AnimalInv (Mammal n ag s c) ∧ (Mammal n ag s c).health = 100 ∧
        (Mammal n ag s c).hunger = 0) ∧
    (∀ (n : String) (ag : Int) (s : String) (b : Bool),
      AnimalInv (Reptile n ag s b) ∧ (Reptile n ag s b).health = 100 ∧
        (Reptile n ag s b).hunger = 0) ∧
    (∀ (a : Animal) (f : Int), AnimalInv a → AnimalInv (a.eat f).1) ∧
    (∀ (v : Employee) (a : Animal), AnimalInv a → AnimalInv (v.heal_animal a).1) ∧
    (∀ (z : Zoo) (now : String) (z' : Zoo), (∀ a ∈ z.animals, AnimalInv a) →
      Zoo.load_from_file z.save_to_file now = Except.ok z' → ∀ a ∈ z'.animals, AnimalInv a) := by
  refine ⟨?_, ?_, ?_, ?_, ?_, ?_⟩
  · intro n ag s w
    refine ⟨⟨?_, ?_, ?_⟩, rfl, rfl⟩ <;> norm_num [Bird]
  · intro n ag s c
    refine ⟨⟨?_, ?_, ?_⟩, rfl, rfl⟩ <;> norm_num [Mammal]
  · intro n ag s b
    refine ⟨⟨?_, ?_, ?_⟩, rfl, rfl⟩ <;> norm_num [Reptile]
  · intro a f h
    exact ⟨h.1, h.2.1, le_max_left 0 _⟩
  · intro v a h
    by_cases hlt : a.health < 100
    · simp only [Employee.heal_animal, if_pos hlt]
      obtain ⟨h1, h2, h3⟩ := h
      refine ⟨?_, ?_, h3⟩ <;> simp <;> omega
    · simpa [Employee.heal_animal, if_neg hlt] using h
  · intro z now z' hInv hLoad
    rw [load_save z now] at hLoad
    injection hLoad with h
    subst h
    exact hInv

theorem C4_invariants_witness :
    AnimalInv (eagle.eat (-7)).1 ∧ AnimalInv (vet.heal_animal sickLion).1 ∧
    (∀ a ∈ demoZoo.animals, AnimalInv a) :=
  ⟨C4_invariants.2.2.2.1 eagle (-7) (by decide),
   C4_invariants.2.2.2.2.1 vet sickLion (by decide),
   C4_invariants.2.2.2.2.2 demoZoo "2031-01-01" demoZoo (by decide)
     (load_save demoZoo "2031-01-01")⟩

/-- C7: `list_animals` returns the newline-joined `species name` lines of the
animals in insertion order (variant-independent), `list_employees` the
`ClassName name` lines, `animal_sounds` the `make_sound` outputs, and the two
add operations append at the end, preserving that order. -/
theorem C7_listing_order (z : Zoo) (a : Animal) (e : Employee) :
    (z.add_animal a).animals = z.animals ++ [a] ∧
    (z.add_employee e).employees = z.employees ++ [e] ∧
    z.list_animals =
      String.intercalate "\n" (z.animals.map (fun x => x.species ++ " " ++ x.name)) ∧
    z.list_employees =
      String.intercalate "\n" (z.employees.map (fun x => x.type_tag ++ " " ++ x.name)) ∧
    z.animal_sounds = String.intercalate "\n" (z.animals.map Animal.make_sound) ∧
    ((((Zoo.init "Central Zoo" "2024-01-01").add_animal eagle).add_animal lion).add_animal
        sid).list_animals = "Eagle Eddie\nLion Leo\nPython Sid" :=
  ⟨rfl, rfl, rfl, rfl, rfl, by decide⟩

/-- C8: `eat` mutates only `hunger`, `heal_animal` mutates only `health`
(name, age, species and the variant payload are untouched, as are health for
`eat` and hunger for `heal_animal`), and `feed_animal` is pure delegation to
the animal's `eat`, adding only the keeper attribution to the string. -/
theorem C8_frame (a : Animal) (f : Int) (k v : Employee) :
    ((a.eat f).1.name = a.name ∧ (a.eat f).1.age = a.age ∧
      (a.eat f).1.species = a.species ∧ (a.eat f).1.health = a.health ∧
      (a.eat f).1.extra = a.extra) ∧
    ((v.heal_animal a).1.name = a.name ∧ (v.heal_animal a).1.age = a.age ∧
      (v.heal_animal a).1.species = a.species ∧ (v.heal_animal a).1.hunger = a.hunger ∧
      (v.heal_animal a).1.extra = a.extra) ∧
    ((k.feed_animal a f).1 = (a.eat f).1 ∧
      (k.feed_animal a f).2 =
        "Zookeeper " ++ k.name ++ " fed " ++ a.name ++ ". " ++ (a.eat f).2) := by
  refine ⟨⟨rfl, rfl, rfl, rfl, rfl⟩, ?_, rfl, rfl⟩
  by_cases hlt : a.health < 100 <;>
    simp [Employee.heal_animal, hlt]

/-- C10: the result of load is fully determined by the document: loads at any
two times agree exactly, and the clock-generated default `founded_date` of the
fresh Zoo never reaches the result — the loaded Zoo carries the document's
`founded_date` and `name`. -/
theorem C10_load_deterministic (doc : ZooDoc) (now1 now2 : String) :
    Zoo.load_from_file doc now1 = Zoo.load_from_file doc now2 ∧
    ∀ z, Zoo.load_from_file doc now1 = Except.ok z →
      z.founded_date = doc.founded_date ∧ z.name = doc.name := by
  refine ⟨rfl, fun z h => ?_⟩
  unfold Zoo.load_from_file at h
  obtain ⟨animals, hA, h⟩ := ebind_ok _ _ _ h
  obtain ⟨employees, hE, h⟩ := ebind_ok _ _ _ h
  injection h with h
  subst h
  exact ⟨rfl, rfl⟩

theorem C10_load_deterministic_witness :
    demoZoo.founded_date = demoDoc.founded_date ∧ demoZoo.name = demoDoc.name :=
  (C10_load_deterministic demoDoc "2030-01-01" "2031-12-31").2 demoZoo
    (load_save demoZoo "2030-01-01")

/-! ### Unknown-tag skipping (C5) -/

/-- The record carries a `type` field whose value matches no animal variant. -/
def isUnknownAnimalTag (r : JRecord) : Bool :=
  match r.get "type" with
  | some t =>
    if t = JValue.vStr "Bird" then false
    else if t = JValue.vStr "Mammal" then false
    else if t = JValue.vStr "Reptile" then false
    else true
  | none => false

/-- The record carries a `type` field whose value matches no employee variant. -/
def isUnknownEmployeeTag (r : JRecord) : Bool :=
  match r.get "type" with
  | some t =>
    if t = JValue.vStr "ZooKeeper" then false
    else if t = JValue.vStr "Veterinarian" then false
    else true
  | none => false

/-- The animals that resolve, in document order. -/
def resolvedAnimals (rs : List JRecord) : List Animal :=
  rs.filterMap fun r =>
    match loadAnimal r with
    | Except.ok (some a) => some a
    | _ => none

/-- The employees that resolve, in document order. -/
def resolvedEmployees (rs : List JRecord) : List Employee :=
  rs.filterMap fun r =>
    match loadEmployee r with
    | Except.ok (some e) => some e
    | _ => none

theorem loadAnimal_unknown (r : JRecord) (h : isUnknownAnimalTag r = true) :
    loadAnimal r = Except.ok none := by
  unfold isUnknownAnimalTag at h
  unfold loadAnimal
  cases hg : r.get "type" with
  | none => rw [hg] at h; simp at h
  | some t =>
    rw [hg] at h
    by_cases h1 : t = JValue.vStr "Bird"
    · simp [h1] at h
    · by_cases h2 : t = JValue.vStr "Mammal"
      · simp [h1, h2] at h
      · by_cases h3 : t = JValue.vStr "Reptile"
        · simp [h1, h2, h3] at h
        · simp [h1, h2, h3]

theorem loadEmployee_unknown (r : JRecord) (h : isUnknownEmployeeTag r = true) :
    loadEmployee r = Except.ok none := by
  unfold isUnknownEmployeeTag at h
  unfold loadEmployee
  cases hg : r.get "type" with
  | none => rw [hg] at h; simp at h
  | some t =>
    rw [hg] at h
    by_cases h1 : t = JValue.vStr "ZooKeeper"
    · simp [h1] at h
    · by_cases h2 : t = JValue.vStr "Veterinarian"
      · simp [h1, h2] at h
      · simp [h1, h2]

theorem loadAnimals_resolve : ∀ (rs : List JRecord) (acc : List Animal),
    (∀ r ∈ rs, (∃ a, loadAnimal r = Except.ok (some a)) ∨ isUnknownAnimalTag r = true) →
    loadAnimals rs acc = Except.ok (acc ++ resolvedAnimals rs) := by
  intro rs
  induction rs with
  | nil => intro acc _; simp [loadAnimals, resolvedAnimals]
  | cons r rest ih =>
    intro acc h
    have hrest := fun x hx => h x (List.mem_cons_of_mem r hx)
    rcases h r (List.mem_cons_self r rest) with ⟨a, ha⟩ | hu
    · simp only [loadAnimals, ha, Except.bind, resolvedAnimals, List.filterMap_cons]
      rw [ih (acc ++ [a]) hrest]
      simp [resolvedAnimals]
    · have ha := loadAnimal_unknown r hu
      simp only [loadAnimals, ha, Except.bind, resolvedAnimals, List.filterMap_cons]
      rw [ih acc hrest]
      simp [resolvedAnimals]

theorem loadEmployees_resolve : ∀ (rs : List JRecord) (acc : List Employee),
    (∀ r ∈ rs, (∃ e, loadEmployee r = Except.ok (some e)) ∨ isUnknownEmployeeTag r = true) →
    loadEmployees rs acc = Except.ok (acc ++ resolvedEmployees rs) := by
  intro rs
  induction rs with
  | nil => intro acc _; simp [loadEmployees, resolvedEmployees]
  | cons r rest ih =>
    intro acc h
    have hrest := fun x hx => h x (List.mem_cons_of_mem r hx)
    rcases h r (List.mem_cons_self r rest) with ⟨e, he⟩ | hu
    · simp only [loadEmployees, he, Except.bind, resolvedEmployees, List.filterMap_cons]
      rw [ih (acc ++ [e]) hrest]
      simp [resolvedEmployees]
    · have he := loadEmployee_unknown r hu
      simp only [loadEmployees, he, Except.bind, resolvedEmployees, List.filterMap_cons]
      rw [ih acc hrest]
      simp [resolvedEmployees]

theorem resolvedAnimals_length : ∀ rs : List JRecord,
    (∀ r ∈ rs, (∃ a, loadAnimal r = Except.ok (some a)) ∨ isUnknownAnimalTag r = true) →
    (resolvedAnimals rs).length = rs.length - (rs.filter isUnknownAnimalTag).length := by
  intro rs
  induction rs with
  | nil => intro _; simp [resolvedAnimals]
  | cons r rest ih =>
    intro h
    have hrest := fun x hx => h x (List.mem_cons_of_mem r hx)
    have hlen := ih hrest
    have hk : (rest.filter isUnknownAnimalTag).length ≤ rest.length :=
      (List.filter_sublist rest).length_le
    simp only [resolvedAnimals] at hlen ⊢
    rcases h r (List.mem_cons_self r rest) with ⟨a, ha⟩ | hu
    · have hu' : isUnknownAnimalTag r = false := by
        cases hb : isUnknownAnimalTag r with
        | false => rfl
        | true => rw [loadAnimal_unknown r hb] at ha; exact absurd ha (by simp)
      simp only [List.filterMap_cons, List.filter_cons, ha, hu']
      simp only [Bool.false_eq_true, if_false, List.length_cons]
      omega
    · have ha := loadAnimal_unknown r hu
      simp only [List.filterMap_cons, List.filter_cons, ha, hu]
      simp only [if_true, List.length_cons]
      omega

theorem resolvedEmployees_length : ∀ rs : List JRecord,
    (∀ r ∈ rs, (∃ e, loadEmployee r = Except.ok (some e)) ∨ isUnknownEmployeeTag r = true) →
    (resolvedEmployees rs).length = rs.length - (rs.filter isUnknownEmployeeTag).length := by
  intro rs
  induction rs with
  | nil => intro _; simp [resolvedEmployees]
  | cons r rest ih =>
    intro h
    have hrest := fun x hx => h x (List.mem_cons_of_mem r hx)
    have hlen := ih hrest
    have hk : (rest.filter isUnknownEmployeeTag).length ≤ rest.length :=
      (List.filter_sublist rest).length_le
    simp only [resolvedEmployees] at hlen ⊢
    rcases h r (List.mem_cons_self r rest) with ⟨e, he⟩ | hu
    · have hu' : isUnknownEmployeeTag r = false := by
        cases hb : isUnknownEmployeeTag r with
        | false => rfl
        | true => rw [loadEmployee_unknown r hb] at he; exact absurd he (by simp)
      simp only [List.filterMap_cons, List.filter_cons, he, hu']
      simp only [Bool.false_eq_true, if_false, List.length_cons]
      omega
    · have he := loadEmployee_unknown r hu
      simp only [List.filterMap_cons, List.filter_cons, he, hu]
      simp only [if_true, List.length_cons]
      omega

def dragonRec : JRecord := [("type", JValue.vStr "Dragon"), ("name", JValue.vStr "Smaug")]

def janitorRec : JRecord := [("type", JValue.vStr "Janitor"), ("name", JValue.vStr "Bob")]

def mixedDoc : ZooDoc :=
  { name := "Central Zoo", founded_date := "2024-01-01",
    animals := [Animal.to_dict eagle, dragonRec, Animal.to_dict lion],
    employees := [Employee.to_dict keeper, janitorRec] }

/-- C5: a document whose records either resolve or carry an unrecognized
`type` tag loads without error; unrecognized records are silently skipped
with no placeholder, the collections hold exactly the resolved records in
document order, and each count equals total records minus unresolved ones. -/
theorem C5_unknown_tags_skipped (doc : ZooDoc) (now : String)
    (hA : ∀ r ∈ doc.animals,
      (∃ a, loadAnimal r = Except.ok (some a)) ∨ isUnknownAnimalTag r = true)
    (hE : ∀ r ∈ doc.employees,
      (∃ e, loadEmployee r = Except.ok (some e)) ∨ isUnknownEmployeeTag r = true) :
    ∃ z, Zoo.load_from_file doc now = Except.ok z ∧
      z.animals = resolvedAnimals doc.animals ∧
      z.employees = resolvedEmployees doc.employees ∧
      z.animals.length = doc.animals.length - (doc.animals.filter isUnknownAnimalTag).length ∧
      z.employees.length =
        doc.employees.length - (doc.employees.filter isUnknownEmployeeTag).length := by
  refine ⟨{ name := doc.name, animals := resolvedAnimals doc.animals,
            employees := resolvedEmployees doc.employees, founded_date := doc.founded_date },
          ?_, rfl, rfl, resolvedAnimals_length doc.animals hA,
          resolvedEmployees_length doc.employees hE⟩
  show (loadAnimals doc.animals []).bind (fun animals =>
    (loadEmployees doc.employees []).bind (fun employees =>
      (Except.ok { name := doc.name, animals := animals, employees := employees,
                   founded_date := doc.founded_date } : Except String Zoo))) =
    Except.ok { name := doc.name, animals := resolvedAnimals doc.animals,
                employees := resolvedEmployees doc.employees,
                founded_date := doc.founded_date }
  rw [loadAnimals_resolve doc.animals [] hA]
  simp only [Except.bind, List.nil_append]
  rw [loadEmployees_resolve doc.employees [] hE]
  simp only [Except.bind, List.nil_append]

theorem C5_unknown_tags_skipped_witness :
    ∃ z, Zoo.load_from_file mixedDoc "2030-01-01" = Except.ok z ∧
      z.animals = resolvedAnimals mixedDoc.animals ∧
      z.employees = resolvedEmployees mixedDoc.employees ∧
      z.animals.length =
        mixedDoc.animals.length - (mixedDoc.animals.filter isUnknownAnimalTag).length ∧
      z.employees.length =
        mixedDoc.employees.length - (mixedDoc.employees.filter isUnknownEmployeeTag).length :=
  C5_unknown_tags_skipped mixedDoc "2030-01-01"
    (by
      intro r hr
      simp only [mixedDoc, List.mem_cons, List.not_mem_nil, or_false] at hr
      rcases hr with rfl | rfl | rfl
      · exact Or.inl ⟨eagle, loadAnimal_to_dict eagle⟩
      · exact Or.inr rfl
      · exact Or.inl ⟨lion, loadAnimal_to_dict lion⟩)
    (by
      intro r hr
      simp only [mixedDoc, List.mem_cons, List.not_mem_nil, or_false] at hr
      rcases hr with rfl | rfl
      · exact Or.inl ⟨keeper, loadEmployee_to_dict keeper⟩
      · exact Or.inr rfl)
/-! ### Missing-field failure (C6) -/

/-- The fields `load_from_file` indexes on an animal record whose tag matched. -/
def animalRequiredFields : String → List String
  | "Bird" => ["name", "age", "species", "wingspan", "health", "hunger"]
  | "Mammal" => ["name", "age", "species", "fur_color", "health", "hunger"]
  | "Reptile" => ["name", "age", "species", "is_venomous", "health", "hunger"]
  | _ => []

/-- The fields `load_from_file` indexes on an employee record whose tag matched. -/
def employeeRequiredFields : String → List String
  | "ZooKeeper" => ["name", "id_number", "specialization"]
  | "Veterinarian" => ["name", "id_number", "specialization"]
  | _ => []

theorem getStr_ok_isSome (r : JRecord) (k s : String) (h : r.getStr k = Except.ok s) :
    (r.get k).isSome := by
  unfold JRecord.getStr at h
  cases hg : r.get k with
  | none => rw [hg] at h; exact absurd h (by simp)
  | some v => simp

theorem getInt_ok_isSome (r : JRecord) (k : String) (n : Int) (h : r.getInt k = Except.ok n) :
    (r.get k).isSome := by
  unfold JRecord.getInt at h
  cases hg : r.get k with
  | none => rw [hg] at h; exact absurd h (by simp)
  | some v => simp

theorem getRat_ok_isSome (r : JRecord) (k : String) (q : Rat) (h : r.getRat k = Except.ok q) :
    (r.get k).isSome := by
  unfold JRecord.getRat at h
  cases hg : r.get k with
  | none => rw [hg] at h; exact absurd h (by simp)
  | some v => simp

theorem getBool_ok_isSome (r : JRecord) (k : String) (b : Bool) (h : r.getBool k = Except.ok b) :
    (r.get k).isSome := by
  unfold JRecord.getBool at h
  cases hg : r.get k with
  | none => rw [hg] at h; exact absurd h (by simp)
  | some v => simp

theorem loadAnimal_known_not_skip (r : JRecord) (tag : String)
    (ht : r.get "type" = some (JValue.vStr tag)) (hk : tag ∈ ["Bird", "Mammal", "Reptile"]) :
    loadAnimal r ≠ Except.ok none := by
  simp only [List.mem_cons, List.not_mem_nil, or_false] at hk
  rcases hk with rfl | rfl | rfl <;>
    · simp only [loadAnimal, ht]
      intro h
      obtain ⟨x1, -, h⟩ := ebind_ok _ _ _ h
      obtain ⟨x2, -, h⟩ := ebind_ok _ _ _ h
      obtain ⟨x3, -, h⟩ := ebind_ok _ _ _ h
      obtain ⟨x4, -, h⟩ := ebind_ok _ _ _ h
      obtain ⟨x5, -, h⟩ := ebind_ok _ _ _ h
      obtain ⟨x6, -, h⟩ := ebind_ok _ _ _ h
      exact absurd h (by simp)

theorem loadEmployee_known_not_skip (r : JRecord) (tag : String)
    (ht : r.get "type" = some (JValue.vStr tag)) (hk : tag ∈ ["ZooKeeper", "Veterinarian"]) :
    loadEmployee r ≠ Except.ok none := by
  simp only [List.mem_cons, List.not_mem_nil, or_false] at hk
  rcases hk with rfl | rfl <;>
    · simp only [loadEmployee, ht]
      intro h
      obtain ⟨x1, -, h⟩ := ebind_ok _ _ _ h
      obtain ⟨x2, -, h⟩ := ebind_ok _ _ _ h
      obtain ⟨x3, -, h⟩ := ebind_ok _ _ _ h
      exact absurd h (by simp)

theorem loadAnimal_ok_fields (r : JRecord) (a : Animal) (tag : String)
    (ht : r.get "type" = some (JValue.vStr tag)) (hk : tag ∈ ["Bird", "Mammal", "Reptile"])
    (hok : loadAnimal r = Except.ok (some a)) :
    ∀ f ∈ animalRequiredFields tag, (r.get f).isSome := by
  simp only [List.mem_cons, List.not_mem_nil, or_false] at hk
  rcases hk with rfl | rfl | rfl
  · simp only [loadAnimal, ht] at hok
    obtain ⟨name, h1, hok⟩ := ebind_ok _ _ _ hok
    obtain ⟨age, h2, hok⟩ := ebind_ok _ _ _ hok
    obtain ⟨species, h3, hok⟩ := ebind_ok _ _ _ hok
    obtain ⟨wingspan, h4, hok⟩ := ebind_ok _ _ _ hok
    obtain ⟨health, h5, hok⟩ := ebind_ok _ _ _ hok
    obtain ⟨hunger, h6, hok⟩ := ebind_ok _ _ _ hok
    intro f hf
    have hfields : animalRequiredFields "Bird" =
        ["name", "age", "species", "wingspan", "health", "hunger"] := rfl
    rw [hfields] at hf
    simp only [List.mem_cons, List.not_mem_nil, or_false] at hf
    rcases hf with rfl | rfl | rfl | rfl | rfl | rfl
    · exact getStr_ok_isSome r _ _ h1
    · exact getInt_ok_isSome r _ _ h2
    · exact getStr_ok_isSome r _ _ h3
    · exact getRat_ok_isSome r _ _ h4
    · exact getInt_ok_isSome r _ _ h5
    · exact getInt_ok_isSome r _ _ h6
  · simp only [loadAnimal, ht] at hok
    obtain ⟨name, h1, hok⟩ := ebind_ok _ _ _ hok
    obtain ⟨age, h2, hok⟩ := ebind_ok _ _ _ hok
    obtain ⟨species, h3, hok⟩ := ebind_ok _ _ _ hok
    obtain ⟨fur_color, h4, hok⟩ := ebind_ok _ _ _ hok
    obtain ⟨health, h5, hok⟩ := ebind_ok _ _ _ hok
    obtain ⟨hunger, h6, hok⟩ := ebind_ok _ _ _ hok
    intro f hf
    have hfields : animalRequiredFields "Mammal" =
        ["name", "age", "species", "fur_color", "health", "hunger"] := rfl
    rw [hfields] at hf
    simp only [List.mem_cons, List.not_mem_nil, or_false] at hf
    rcases hf with rfl | rfl | rfl | rfl | rfl | rfl
    · exact getStr_ok_isSome r _ _ h1
    · exact getInt_ok_isSome r _ _ h2
    · exact getStr_ok_isSome r _ _ h3
    · exact getStr_ok_isSome r _ _ h4
    · exact getInt_ok_isSome r _ _ h5
    · exact getInt_ok_isSome r _ _ h6
  · simp only [loadAnimal, ht] at hok
    obtain ⟨name, h1, hok⟩ := ebind_ok _ _ _ hok
    obtain ⟨age, h2, hok⟩ := ebind_ok _ _ _ hok
    obtain ⟨species, h3, hok⟩ := ebind_ok _ _ _ hok
    obtain ⟨is_venomous, h4, hok⟩ := ebind_ok _ _ _ hok
    obtain ⟨health, h5, hok⟩ := ebind_ok _ _ _ hok
    obtain ⟨hunger, h6, hok⟩ := ebind_ok _ _ _ hok
    intro f hf
    have hfields : animalRequiredFields "Reptile" =
        ["name", "age", "species", "is_venomous", "health", "hunger"] := rfl
    rw [hfields] at hf
    simp only [List.mem_cons, List.not_mem_nil, or_false] at hf
    rcases hf with rfl | rfl | rfl | rfl | rfl | rfl
    · exact getStr_ok_isSome r _ _ h1
    · exact getInt_ok_isSome r _ _ h2
    · exact getStr_ok_isSome r _ _ h3
    · exact getBool_ok_isSome r _ _ h4
    · exact getInt_ok_isSome r _ _ h5
    · exact getInt_ok_isSome r _ _ h6

theorem loadEmployee_ok_fields (r : JRecord) (e : Employee) (tag : String)
    (ht : r.get "type" = some (JValue.vStr tag)) (hk : tag ∈ ["ZooKeeper", "Veterinarian"])
    (hok : loadEmployee r = Except.ok (some e)) :
    ∀ f ∈ employeeRequiredFields tag, (r.get f).isSome := by
  simp only [List.mem_cons, List.not_mem_nil, or_false] at hk
  have hzk : employeeRequiredFields "ZooKeeper" = ["name", "id_number", "specialization"] := rfl
  have hvt : employeeRequiredFields "Veterinarian" =
      ["name", "id_number", "specialization"] := rfl
  rcases hk with rfl | rfl
  · simp only [loadEmployee, ht] at hok
    obtain ⟨name, h1, hok⟩ := ebind_ok _ _ _ hok
    obtain ⟨id_number, h2, hok⟩ := ebind_ok _ _ _ hok
    obtain ⟨specialization, h3, hok⟩ := ebind_ok _ _ _ hok
    intro f hf
    rw [hzk] at hf
    simp only [List.mem_cons, List.not_mem_nil, or_false] at hf
    rcases hf with rfl | rfl | rfl
    · exact getStr_ok_isSome r _ _ h1
    · exact getStr_ok_isSome r _ _ h2
    · exact getStr_ok_isSome r _ _ h3
  · simp only [loadEmployee, ht] at hok
    obtain ⟨name, h1, hok⟩ := ebind_ok _ _ _ hok
    obtain ⟨id_number, h2, hok⟩ := ebind_ok _ _ _ hok
    obtain ⟨specialization, h3, hok⟩ := ebind_ok _ _ _ hok
    intro f hf
    rw [hvt] at hf
    simp only [List.mem_cons, List.not_mem_nil, or_false] at hf
    rcases hf with rfl | rfl | rfl
    · exact getStr_ok_isSome r _ _ h1
    · exact getStr_ok_isSome r _ _ h2
    · exact getStr_ok_isSome r _ _ h3

theorem loadAnimal_missing_field (r : JRecord) (tag f : String)
    (ht : r.get "type" = some (JValue.vStr tag)) (hk : tag ∈ ["Bird", "Mammal", "Reptile"])
    (hf : f ∈ animalRequiredFields tag) (hmiss : r.get f = none) :
    ∃ e, loadAnimal r = Except.error e := by
  cases hres : loadAnimal r with
  | error e => exact ⟨e, rfl⟩
  | ok o =>
    cases o with
    | none => exact absurd hres (loadAnimal_known_not_skip r tag ht hk)
    | some a =>
      have := loadAnimal_ok_fields r a tag ht hk hres f hf
      rw [hmiss] at this
      exact absurd this (by simp)

theorem loadEmployee_missing_field (r : JRecord) (tag f : String)
    (ht : r.get "type" = some (JValue.vStr tag)) (hk : tag ∈ ["ZooKeeper", "Veterinarian"])
    (hf : f ∈ employeeRequiredFields tag) (hmiss : r.get f = none) :
    ∃ e, loadEmployee r = Except.error e := by
  cases hres : loadEmployee r with
  | error e => exact ⟨e, rfl⟩
  | ok o =>
    cases o with
    | none => exact absurd hres (loadEmployee_known_not_skip r tag ht hk)
    | some emp =>
      have := loadEmployee_ok_fields r emp tag ht hk hres f hf
      rw [hmiss] at this
      exact absurd this (by simp)

theorem loadAnimals_error_of_mem : ∀ (rs : List JRecord) (acc : List Animal) (r : JRecord),
    r ∈ rs → (∃ e, loadAnimal r = Except.error e) →
    ∃ e, loadAnimals rs acc = Except.error e := by
  intro rs
  induction rs with
  | nil => intro acc r hr _; exact absurd hr (List.not_mem_nil r)
  | cons x rest ih =>
    intro acc r hr he
    cases hx : loadAnimal x with
    | error e => exact ⟨e, by simp only [loadAnimals, hx, Except.bind]⟩
    | ok o =>
      rcases List.mem_cons.mp hr with rfl | hr'
      · obtain ⟨e, he⟩ := he
        rw [hx] at he
        exact absurd he (by simp)
      · cases o with
        | some a =>
          obtain ⟨e, hrec⟩ := ih (acc ++ [a]) r hr' he
          exact ⟨e, by simp only [loadAnimals, hx, Except.bind]; exact hrec⟩
        | none =>
          obtain ⟨e, hrec⟩ := ih acc r hr' he
          exact ⟨e, by simp only [loadAnimals, hx, Except.bind]; exact hrec⟩

theorem loadEmployees_error_of_mem : ∀ (rs : List JRecord) (acc : List Employee) (r : JRecord),
    r ∈ rs → (∃ e, loadEmployee r = Except.error e) →
    ∃ e, loadEmployees rs acc = Except.error e := by
  intro rs
  induction rs with
  | nil => intro acc r hr _; exact absurd hr (List.not_mem_nil r)
  | cons x rest ih =>
    intro acc r hr he
    cases hx : loadEmployee x with
    | error e => exact ⟨e, by simp only [loadEmployees, hx, Except.bind]⟩
    | ok o =>
      rcases List.mem_cons.mp hr with rfl | hr'
      · obtain ⟨e, he⟩ := he
        rw [hx] at he
        exact absurd he (by simp)
      · cases o with
        | some emp =>
          obtain ⟨e, hrec⟩ := ih (acc ++ [emp]) r hr' he
          exact ⟨e, by simp only [loadEmployees, hx, Except.bind]; exact hrec⟩
        | none =>
          obtain ⟨e, hrec⟩ := ih acc r hr' he
          exact ⟨e, by simp only [loadEmployees, hx, Except.bind]; exact hrec⟩

def badBirdRec : JRecord :=
  [("type", JValue.vStr "Bird"), ("name", JValue.vStr "Kiwi"), ("age", JValue.vInt 2),
   ("species", JValue.vStr "Kiwi"), ("health", JValue.vInt 90), ("hunger", JValue.vInt 1)]

def badDoc : ZooDoc :=
  { name := "Central Zoo", founded_date := "2024-01-01",
    animals := [badBirdRec], employees := [] }

/-- C6: a record whose `type` tag matches a known variant but which is missing
one of the fields that tag requires (such as a Bird record without `wingspan`,
or any animal record without `health` or `hunger`) makes the whole load fail:
the missing field propagates out of the call instead of skipping the record. -/
theorem C6_missing_field_fails (doc : ZooDoc) (now : String)
    (h : (∃ r ∈ doc.animals, ∃ tag, r.get "type" = some (JValue.vStr tag) ∧
            tag ∈ ["Bird", "Mammal", "Reptile"] ∧
            ∃ f ∈ animalRequiredFields tag, r.get f = none) ∨
         (∃ r ∈ doc.employees, ∃ tag, r.get "type" = some (JValue.vStr tag) ∧
            tag ∈ ["ZooKeeper", "Veterinarian"] ∧
            ∃ f ∈ employeeRequiredFields tag, r.get f = none)) :
    ∃ e, Zoo.load_from_file doc now = Except.error e := by
  have hshape : ∀ e : String,
      ((loadAnimals doc.animals []).bind (fun animals =>
        (loadEmployees doc.employees []).bind (fun employees =>
          (Except.ok { name := doc.name, animals := animals, employees := employees,
                       founded_date := doc.founded_date } : Except String Zoo))) =
        Except.error e) →
      Zoo.load_from_file doc now = Except.error e := fun e he => he
  rcases h with ⟨r, hr, tag, ht, hk, f, hf, hmiss⟩ | ⟨r, hr, tag, ht, hk, f, hf, hmiss⟩
  · obtain ⟨e, he⟩ :=
      loadAnimals_error_of_mem doc.animals [] r hr
        (loadAnimal_missing_field r tag f ht hk hf hmiss)
    exact ⟨e, hshape e (by rw [he]; rfl)⟩
  · obtain ⟨e, he⟩ :=
      loadEmployees_error_of_mem doc.employees [] r hr
        (loadEmployee_missing_field r tag f ht hk hf hmiss)
    cases hA : loadAnimals doc.animals [] with
    | error e2 => exact ⟨e2, hshape e2 (by rw [hA]; rfl)⟩
    | ok animals =>
      exact ⟨e, hshape e (by rw [hA]; simp only [Except.bind]; rw [he])⟩

theorem C6_missing_field_fails_witness :
    ∃ e, Zoo.load_from_file badDoc "2030-01-01" = Except.error e :=
  C6_missing_field_fails badDoc "2030-01-01"
    (Or.inl ⟨badBirdRec, by simp [badDoc], "Bird", rfl, by decide, "wingspan", by decide, rfl⟩)

/-! ### File-handle traces of the persistence calls (C9)

The two persistence methods touch the file system in ways the in-memory
embedding above abstracts away; their handle discipline is embedded here as
explicit event traces read off the source. -/

/-- The file-handle events a persistence call can issue, in order. -/
inductive FileEvent where
  | openW
  | openR
  | readAll
  | writeAll
  | close
deriving DecidableEq

/-- Trace of `save_to_file`'s file handling:
`json.dump(data, open(filename, "w", encoding="utf-8"), indent=4)` opens the
target and writes the whole document through the handle, but the handle is
neither wrapped in a scoped (`with`) block nor explicitly closed, so no close
event is issued before the call returns; the handle is left to the runtime's
garbage collector. -/
def save_to_file_events : List FileEvent :=
  [FileEvent.openW, FileEvent.writeAll]

/-- Trace of `load_from_file`'s file handling:
`with open(filename, "r", encoding="utf-8") as f: data = json.load(f)` —
the scoped block closes the handle on every exit path before the call
returns, also when `json.load` fails after reading (`parse_fails = true`),
which is why the trace does not depend on `parse_fails`. -/
def load_from_file_events (parse_fails : Bool) : List FileEvent :=
  [FileEvent.openR, FileEvent.readAll, FileEvent.close]

/-- C9 counterexample: the claim that both persistence calls guarantee a close
on every exit path before returning is false at `save_to_file`, whose trace
contains no close event at all. -/
theorem C9_save_never_closes : FileEvent.close ∉ save_to_file_events := by
  decide

/-- C9 (amended): `load_from_file` treats the file as a scoped resource — it
opens, reads fully, and its trace ends with a close on every exit path,
whether or not parsing fails — while `save_to_file` opens the target and
writes the document but issues no close before returning. -/
theorem C9_scoped_load_unscoped_save :
    (∀ parse_fails : Bool,
      (load_from_file_events parse_fails).getLast? = some FileEvent.close ∧
      load_from_file_events parse_fails =
        [FileEvent.openR, FileEvent.readAll, FileEvent.close]) ∧
    save_to_file_events = [FileEvent.openW, FileEvent.writeAll] ∧
    FileEvent.writeAll ∈ save_to_file_events ∧
    FileEvent.close ∉ save_to_file_events := by
  decide
